import Mathlib

/-!
Verification of the `mailchimp` Go package (`client.go`): a minimal HTTP
client with one domain operation (`Subscribe`), a generic dispatch
primitive (`do`, embedded here as `doDispatch` since `do` is reserved),
and a response classifier (`checkResponse`).

The package delegates JSON encoding/decoding to the standard library
codec and URL parsing to the standard URL parser; those collaborators
are modelled below on the fragment the client exercises (objects,
arrays, strings, integer numbers, booleans, null; absolute
scheme-host-path URLs).  Machine integers are embedded as `Int`.
-/

/-- A JSON document, as handled by the standard codec the client
delegates to.  Numbers are restricted to integers, the only numeric
values appearing in the client's payloads and envelopes. -/
inductive Json where
  | null : Json
  | bool : Bool → Json
  | num : Int → Json
  | str : String → Json
  | arr : List Json → Json
  | obj : List (String × Json) → Json
deriving Inhabited

/-- Skip JSON whitespace. -/
def skipWs : List Char → List Char
  | c :: cs =>
    if c = ' ' || c = '\t' || c = '\n' || c = '\r' then skipWs cs else c :: cs
  | [] => []

/-- Parse the body of a JSON string literal (the opening quote already
consumed), returning the decoded characters and the remaining input.
Escapes are restricted to the ones the client's traffic can contain. -/
def parseStringBody : List Char → Option (List Char × List Char)
  | [] => none
  | c :: cs =>
    if c = '"' then some ([], cs)
    else if c = '\\' then
      match cs with
      | [] => none
      | e :: cs2 =>
        let dec : Option Char :=
          if e = '"' then some '"'
          else if e = '\\' then some '\\'
          else if e = '/' then some '/'
          else if e = 'n' then some '\n'
          else if e = 't' then some '\t'
          else if e = 'r' then some '\r'
          else none
        match dec with
        | none => none
        | some d =>
          match parseStringBody cs2 with
          | some (s, rest) => some (d :: s, rest)
          | none => none
    else
      match parseStringBody cs with
      | some (s, rest) => some (c :: s, rest)
      | none => none

/-- Consume a run of decimal digits, accumulating their value. -/
def digitsLoop : List Char → Nat → Nat × List Char
  | c :: cs, acc =>
    if c.isDigit then digitsLoop cs (acc * 10 + (c.toNat - 48)) else (acc, c :: cs)
  | [], acc => (acc, [])

/-- Parse a JSON integer number (optional leading minus). -/
def parseNumber (cs : List Char) : Option (Int × List Char) :=
  match cs with
  | '-' :: rest =>
    match rest with
    | c :: _ =>
      if c.isDigit then
        let p := digitsLoop rest 0
        some (-(p.1 : Int), p.2)
      else none
    | [] => none
  | c :: _ =>
    if c.isDigit then
      let p := digitsLoop cs 0
      some ((p.1 : Int), p.2)
    else none
  | [] => none

/-- Match an expected literal suffix (for `true`, `false`, `null`). -/
def expectLit : List Char → List Char → Option (List Char)
  | [], cs => some cs
  | l :: ls, c :: cs => if c = l then expectLit ls cs else none
  | _ :: _, [] => none

mutual

/-- Parse one JSON value.  `fuel` bounds recursion depth; `jsonParse`
supplies more fuel than any input of that length can consume. -/
def parseValue : Nat → List Char → Option (Json × List Char)
  | 0, _ => none
  | fuel + 1, cs =>
    match skipWs cs with
    | [] => none
    | c :: rest =>
      if c = '"' then
        match parseStringBody rest with
        | some (s, rest2) => some (Json.str (String.mk s), rest2)
        | none => none
      else if c = Char.ofNat 123 then
        match skipWs rest with
        | c2 :: rest2 =>
          if c2 = Char.ofNat 125 then some (Json.obj [], rest2)
          else
            match parseMembers fuel (c2 :: rest2) with
            | some (fs, rest3) => some (Json.obj fs, rest3)
            | none => none
        | [] => none
      else if c = '[' then
        match skipWs rest with
        | c2 :: rest2 =>
          if c2 = ']' then some (Json.arr [], rest2)
          else
            match parseElements fuel (c2 :: rest2) with
            | some (xs, rest3) => some (Json.arr xs, rest3)
            | none => none
        | [] => none
      else if c = 't' then
        match expectLit ['r', 'u', 'e'] rest with
        | some rest2 => some (Json.bool true, rest2)
        | none => none
      else if c = 'f' then
        match expectLit ['a', 'l', 's', 'e'] rest with
        | some rest2 => some (Json.bool false, rest2)
        | none => none
      else if c = 'n' then
        match expectLit ['u', 'l', 'l'] rest with
        | some rest2 => some (Json.null, rest2)
        | none => none
      else
        match parseNumber (c :: rest) with
        | some (n, rest2) => some (Json.num n, rest2)
        | none => none

/-- Parse the members of a JSON object (first member not yet consumed,
at least one member present). -/
def parseMembers : Nat → List Char → Option (List (String × Json) × List Char)
  | 0, _ => none
  | fuel + 1, cs =>
    match skipWs cs with
    | c :: rest =>
      if c = '"' then
        match parseStringBody rest with
        | some (key, rest2) =>
          match skipWs rest2 with
          | c2 :: rest3 =>
            if c2 = ':' then
              match parseValue fuel rest3 with
              | some (v, rest4) =>
                match skipWs rest4 with
                | c3 :: rest5 =>
                  if c3 = ',' then
                    match parseMembers fuel rest5 with
                    | some (fs, rest6) => some ((String.mk key, v) :: fs, rest6)
                    | none => none
                  else if c3 = Char.ofNat 125 then
                    some ([(String.mk key, v)], rest5)
                  else none
                | [] => none
              | none => none
            else none
          | [] => none
        | none => none
      else none
    | [] => none

/-- Parse the elements of a JSON array (at least one element present). -/
def parseElements : Nat → List Char → Option (List Json × List Char)
  | 0, _ => none
  | fuel + 1, cs =>
    match parseValue fuel cs with
    | some (v, rest) =>
      match skipWs rest with
      | c :: rest2 =>
        if c = ',' then
          match parseElements fuel rest2 with
          | some (xs, rest3) => some (v :: xs, rest3)
          | none => none
        else if c = ']' then some ([v], rest2)
        else none
      | [] => none
    | none => none

end

/-- `json.Unmarshal`-style parse of a whole byte string: one value,
nothing but whitespace after it. -/
def jsonParse (s : String) : Option Json :=
  match parseValue (s.data.length + 1) s.data with
  | some (j, rest) => if skipWs rest = [] then some j else none
  | none => none

/-- `json.Decoder.Decode`-style parse: first value of the stream,
trailing bytes ignored. -/
def decodeValue (s : String) : Option Json :=
  match parseValue (s.data.length + 1) s.data with
  | some (j, _) => some j
  | none => none

/-- Escape one character the way the standard JSON encoder does (HTML
escaping on, as `json.NewEncoder` defaults to). -/
def escapeChar (c : Char) : List Char :=
  if c = '"' then ['\\', '"']
  else if c = '\\' then ['\\', '\\']
  else if c = '\n' then ['\\', 'n']
  else if c = '\t' then ['\\', 't']
  else if c = '\r' then ['\\', 'r']
  else if c = '<' then ['\\', 'u', '0', '0', '3', 'c']
  else if c = '>' then ['\\', 'u', '0', '0', '3', 'e']
  else if c = '&' then ['\\', 'u', '0', '0', '2', '6']
  else [c]

mutual

/-- Serialize a JSON value, as the standard encoder does (object fields
are kept in the order of the list; the client's only payload lists its
fields in the sorted key order the Go encoder produces for maps). -/
def encodeJson : Json → String
  | Json.null => "null"
  | Json.bool true => "true"
  | Json.bool false => "false"
  | Json.num n => toString n
  | Json.str s => "\"" ++ String.mk (s.data.map escapeChar).flatten ++ "\""
  | Json.arr xs => "[" ++ encodeElemsStr xs ++ "]"
  | Json.obj fs => String.mk [Char.ofNat 123] ++ encodeFieldsStr fs ++ String.mk [Char.ofNat 125]

/-- Serialize array elements, comma-separated. -/
def encodeElemsStr : List Json → String
  | [] => ""
  | [x] => encodeJson x
  | x :: y :: xs => encodeJson x ++ "," ++ encodeElemsStr (y :: xs)

/-- Serialize object fields, comma-separated. -/
def encodeFieldsStr : List (String × Json) → String
  | [] => ""
  | [kv] => "\"" ++ String.mk (kv.1.data.map escapeChar).flatten ++ "\":" ++ encodeJson kv.2
  | kv :: kv2 :: fs =>
      "\"" ++ String.mk (kv.1.data.map escapeChar).flatten ++ "\":" ++ encodeJson kv.2
        ++ "," ++ encodeFieldsStr (kv2 :: fs)

end

/-- `ErrorResponse` (client.go lines 24-29): the JSON error envelope
returned by the remote API on failure statuses. -/
structure ErrorResponse where
  type : String
  title : String
  status : Int
  detail : String
deriving Repr, DecidableEq, Inhabited

/-- `ErrorResponse.Error` (client.go lines 32-34):
`fmt.Sprintf("Error %d %s (%s)", e.Status, e.Title, e.Detail)`. -/
def ErrorResponse.errorMessage (e : ErrorResponse) : String :=
  "Error " ++ toString e.status ++ " " ++ e.title ++ " (" ++ e.detail ++ ")"

/-- Last binding of a key in a JSON object (the standard decoder lets a
later duplicate key overwrite an earlier one). -/
def lookupLast (fields : List (String × Json)) (key : String) : Option Json :=
  match (fields.reverse.find? fun kv => kv.1 = key) with
  | some kv => some kv.2
  | none => none

/-- `json.Unmarshal(data, &errorResponse)` specialized to the
`ErrorResponse` shape: on a top-level JSON object, each tagged field
present with the right type is assigned and every other field keeps its
prior value; on any other input (empty, syntactically invalid, or a
non-object value) the struct is left unchanged. -/
def unmarshalErrorResponse (data : String) (init : ErrorResponse) : ErrorResponse :=
  match jsonParse data with
  | some (Json.obj fields) =>
    { type :=
        match lookupLast fields "type" with
        | some (Json.str s) => s
        | _ => init.type
      title :=
        match lookupLast fields "title" with
        | some (Json.str s) => s
        | _ => init.title
      status :=
        match lookupLast fields "status" with
        | some (Json.num n) => n
        | _ => init.status
      detail :=
        match lookupLast fields "detail" with
        | some (Json.str s) => s
        | _ => init.detail }
  | _ => init

/-- An HTTP response as the client observes it: status code and the
bytes of the body. -/
structure HttpResponse where
  statusCode : Int
  body : String
deriving Repr, DecidableEq, Inhabited

/-- `checkResponse` (client.go lines 117-127): 2xx statuses yield no
error; any other status yields an `ErrorResponse` obtained by a
best-effort unmarshal of the body into a zero-valued envelope (the
unmarshal error is discarded; reading a `String` body never fails, so
the read-error guard of the Go code is always passed). -/
def checkResponse (r : HttpResponse) : Option ErrorResponse :=
  if 200 ≤ r.statusCode ∧ r.statusCode ≤ 299 then none
  else some (unmarshalErrorResponse r.body ⟨"", "", 0, ""⟩)

/-- A structured URL, as the standard URL parser produces for the
absolute scheme-host-path URLs this client constructs. -/
structure URL where
  scheme : String
  host : String
  path : String
deriving Repr, DecidableEq, Inhabited

/-- `url.URL.String` on the fragment above. -/
def urlString (u : URL) : String :=
  u.scheme ++ "://" ++ u.host ++ u.path

/-- Split a character list on every occurrence of a separator
character; like Go's `strings.Split` with a one-character separator,
the result always has one more piece than there are separators, and
pieces may be empty. -/
def splitOnChar (sep : Char) : List Char → List (List Char)
  | [] => [[]]
  | c :: cs =>
    if c = sep then [] :: splitOnChar sep cs
    else
      match splitOnChar sep cs with
      | g :: gs => (c :: g) :: gs
      | [] => [[c]]

/-- `strings.Split(s, sep)` for a one-character separator. -/
def stringsSplit (s : String) (sep : Char) : List String :=
  (splitOnChar sep s.data).map String.mk

/-- Break a character list at the first occurrence of a separator
substring, returning the pieces before and after it. -/
def breakOnSep (sep : List Char) : List Char → Option (List Char × List Char)
  | [] => none
  | c :: cs =>
    if sep.isPrefixOf (c :: cs) then some ([], (c :: cs).drop sep.length)
    else
      match breakOnSep sep cs with
      | some (pre, post) => some (c :: pre, post)
      | none => none

/-- Characters the standard URL parser accepts unescaped in a host. -/
def hostCharOk (c : Char) : Bool :=
  c.isAlphanum ||
    ['-', '.', '_', '~', '!', '$', '&', Char.ofNat 39, '(', ')', '*', '+', ',',
      ';', '=', ':', '%', '@', '[', ']', '<', '>', '"'].contains c

/-- `url.Parse`, modelled on the absolute `scheme://host/path` URLs the
client constructs: the scheme must be a letter followed by
letters/digits/`+`/`-`/`.`, and every host character must be one the
standard parser accepts; the path is taken verbatim. -/
def urlParse (s : String) : Option URL :=
  match breakOnSep [':', '/', '/'] s.data with
  | some (sch, rest) =>
    let schemeOk :=
      match sch with
      | c :: cs => c.isAlpha && cs.all fun d => d.isAlphanum || d = '+' || d = '-' || d = '.'
      | [] => false
    let hostChars := rest.takeWhile fun c => c ≠ '/'
    let pathChars := rest.dropWhile fun c => c ≠ '/'
    if schemeOk && hostChars.all hostCharOk then
      some ⟨String.mk sch, String.mk hostChars, String.mk pathChars⟩
    else none
  | none => none

/-- Hexadecimal digit test, as `net/url`'s `ishex`. -/
def isHexDigit (c : Char) : Bool :=
  c.isDigit || ('a' ≤ c && c ≤ 'f') || ('A' ≤ c && c ≤ 'F')

/-- Value of a hexadecimal digit, as `net/url`'s `unhex`. -/
def hexVal (c : Char) : Nat :=
  if c.isDigit then c.toNat - 48
  else if 'a' ≤ c && c ≤ 'f' then c.toNat - 87
  else if 'A' ≤ c && c ≤ 'F' then c.toNat - 55
  else 0

/-- Percent-escape validation of `unescape` in path, fragment and
userinfo modes: every `%` must begin a two-hex-digit escape. -/
def validEscapes : List Char → Bool
  | [] => true
  | c :: cs =>
    if c = '%' then
      match cs with
      | a :: b :: cs2 => isHexDigit a && isHexDigit b && validEscapes cs2
      | _ => false
    else validEscapes cs

/-- Percent-escape validation of `unescape` in host mode: besides the
two hex digits, a host escape decoding below 0x80 is rejected unless it
is `%25`. -/
def validHostEscapes : List Char → Bool
  | [] => true
  | c :: cs =>
    if c = '%' then
      match cs with
      | a :: b :: cs2 =>
        isHexDigit a && isHexDigit b && (8 ≤ hexVal a || (a = '2' && b = '5')) &&
          validHostEscapes cs2
      | _ => false
    else validHostEscapes cs

/-- Characters `unescape` accepts unescaped in a host: ASCII
alphanumerics, the marks and sub-delims below, `%` (escapes are checked
separately) and any non-ASCII character. -/
def reqHostCharOk (c : Char) : Bool :=
  c.isAlphanum ||
    ['-', '.', '_', '~', '!', '$', '&', Char.ofNat 39, '(', ')', '*', '+', ',',
      ';', '=', ':', '[', ']', '<', '>', '"', '%'].contains c ||
    128 ≤ c.toNat

/-- `validUserinfo` together with the escape validation of the
userinfo-mode `unescape`. -/
def userinfoOk (cs : List Char) : Bool :=
  (cs.all fun c =>
      c.isAlphanum ||
        ['-', '.', '_', ':', '~', '!', '$', '&', Char.ofNat 39, '(', ')', '*',
          '+', ',', ';', '=', '%', '@'].contains c) &&
    validEscapes cs

/-- `validOptionalPort`: whatever follows the last colon of a host must
be a run of digits. -/
def hostPortOk (host : List Char) : Bool :=
  if host.contains ':' then
    ((host.reverse.takeWhile fun c => c ≠ ':').reverse).all Char.isDigit
  else true

/-- `parseAuthority`: split the authority at its last `@` into userinfo
and host, validate the userinfo if present, and validate the host's
port, escapes and characters. -/
def authorityOk (auth : List Char) : Bool :=
  if auth.contains '@' then
    let host := (auth.reverse.takeWhile fun c => c ≠ '@').reverse
    let ui := auth.take (auth.length - host.length - 1)
    userinfoOk ui && hostPortOk host && validHostEscapes host && host.all reqHostCharOk
  else
    hostPortOk auth && validHostEscapes auth && auth.all reqHostCharOk

/-- Scheme validity: a letter followed by letters, digits, `+`, `-` or
`.`. -/
def schemeOkChars : List Char → Bool
  | [] => false
  | c :: cs => c.isAlpha && cs.all fun d => d.isAlphanum || d = '+' || d = '-' || d = '.'

/-- Success test of `url.Parse` as `http.NewRequest` invokes it,
modelled on the absolute URLs `do` concatenates: a control byte (below
0x20, or DEL 0x7f) anywhere fails; the fragment after the first `#` and
the path must carry valid percent escapes; the query after the first
`?` is stored verbatim and not validated; the authority between `://`
and the next `/` is checked for userinfo, port, escape and host-
character validity.  Relative and opaque URL forms, which the client
never builds, are outside the model and rejected. -/
def newRequestURLCheck (s : String) : Bool :=
  let cs := s.data
  (cs.all fun c => 32 ≤ c.toNat && c.toNat ≠ 127) &&
    (let preFrag := cs.takeWhile fun c => c ≠ '#'
     let frag := (cs.dropWhile fun c => c ≠ '#').drop 1
     validEscapes frag &&
       (let preQuery := preFrag.takeWhile fun c => c ≠ '?'
        match breakOnSep [':', '/', '/'] preQuery with
        | some (sch, rest) =>
          schemeOkChars sch &&
            (let auth := rest.takeWhile fun c => c ≠ '/'
             let path := rest.dropWhile fun c => c ≠ '/'
             authorityOk auth && validEscapes path)
        | none => false))

/-- An outbound HTTP request as `do` builds it: method, full URL, the
serialized body if any, and the Basic-Auth pair set by
`req.SetBasicAuth("", c.apiKey)`. -/
structure HttpRequest where
  method : String
  url : String
  body : Option String
  basicAuthUser : String
  basicAuthPass : String
deriving Repr, DecidableEq, Inhabited

/-- The transport collaborator (`http.Client.Do`): a request either
produces a response or a transport error. -/
abbrev Transport := HttpRequest → Except String HttpResponse

/-- Modelled from the spec: `http.DefaultClient`, the process-wide
default transport used when the caller supplies none.  Its network
behavior is outside the core; in this model every send fails with a
transport error, which no claim depends on. -/
def defaultTransport : Transport :=
  fun _ => Except.error "dial tcp: network unreachable"

/-- `Client` (client.go lines 16-21): transport handle, base URL, data
center token and API key. -/
structure Client where
  client : Transport
  baseURL : URL
  dc : String
  apiKey : String

/-- `NewClient` (client.go lines 38-56): reject an API key that does
not split on `-` into exactly two pieces, take the second piece as the
data center, default the transport, and parse the interpolated base
URL. -/
def newClient (apiKey : String) (httpClient : Option Transport) : Except String Client :=
  if (stringsSplit apiKey '-').length ≠ 2 then
    Except.error "Mailchimp API Key must be formatted like: xyz-zys"
  else
    let dc := ((stringsSplit apiKey '-').get? 1).getD ""
    let httpClient := httpClient.getD defaultTransport
    match urlParse ("https://" ++ dc ++ ".api.mailchimp.com/3.0") with
    | none => Except.error "net/url: parse error"
    | some baseURL => Except.ok ⟨httpClient, baseURL, dc, apiKey⟩

/-- `GetBaseURL` (client.go lines 59-61). -/
def getBaseURL (c : Client) : URL :=
  c.baseURL

/-- `SetBaseURL` (client.go lines 64-66). -/
def setBaseURL (c : Client) (baseURL : URL) : Client :=
  { c with baseURL := baseURL }

/-- A Go value passed as a request body: either a JSON-marshalable
value, or one of the values (channels, functions, NaN floats, cycles)
on which `json.Encoder.Encode` fails with the given message. -/
inductive GoBody where
  | jsonVal : Json → GoBody
  | unencodable : String → GoBody

/-- `json.NewEncoder(buf).Encode(body)`: serialize and append the
newline the stream encoder writes, or fail. -/
def goEncode : GoBody → Except String String
  | GoBody.jsonVal j => Except.ok (encodeJson j ++ "\n")
  | GoBody.unencodable msg => Except.error msg

/-- The error outcomes of `do`, one per return path. -/
inductive DoError where
  | serialization : String → DoError
  | requestBuild : String → DoError
  | transport : String → DoError
  | api : ErrorResponse → DoError
  | decode : String → DoError

/-- `do` (client.go lines 81-115), with the requests handed to the
transport made explicit as a trace (second component): encode the body
if present (an encoding failure returns before anything is sent), build
the request by concatenating the base URL and the path
(`http.NewRequest` fails when `url.Parse` rejects the URL, per
`newRequestURLCheck`), attach Basic Auth, send, classify the response,
and decode a success body. -/
def doDispatch (c : Client) (method : String) (path : String) (body : Option GoBody) :
    Except DoError Json × List HttpRequest :=
  let encoded : Except String (Option String) :=
    match body with
    | none => Except.ok none
    | some b =>
      match goEncode b with
      | Except.ok s => Except.ok (some s)
      | Except.error e => Except.error e
  match encoded with
  | Except.error e => (Except.error (DoError.serialization e), [])
  | Except.ok buf =>
    let apiURL := urlString (getBaseURL c) ++ path
    if newRequestURLCheck apiURL then
      let req : HttpRequest := ⟨method, apiURL, buf, "", c.apiKey⟩
      match c.client req with
      | Except.error e => (Except.error (DoError.transport e), [req])
      | Except.ok resp =>
        match checkResponse resp with
        | some e => (Except.error (DoError.api e), [req])
        | none =>
          match decodeValue resp.body with
          | none => (Except.error (DoError.decode "json decode error"), [req])
          | some v => (Except.ok v, [req])
    else
      (Except.error (DoError.requestBuild "net/url: invalid URL"), [])

/-- Claim C3: every response with a status code in [200, 299] is
classified as success by `checkResponse`, whatever the body. -/
theorem c3_checkResponse_success (s : Int) (b : String)
    (h1 : 200 ≤ s) (h2 : s ≤ 299) :
    checkResponse ⟨s, b⟩ = none := by
  unfold checkResponse
  exact if_pos ⟨h1, h2⟩

/-- Claim C3, witness at status 204 with a malformed body. -/
theorem c3_witness : checkResponse ⟨204, "not json at all"⟩ = none :=
  c3_checkResponse_success 204 "not json at all" (by decide) (by decide)

/-- Claim C4: every `ErrorResponse` stringifies as
`Error <status> <title> (<detail>)`; for a 404 response carrying the
problem-details body of the claim, `checkResponse` returns exactly that
envelope and it stringifies as `Error 404 Not Found (x)`. -/
theorem c4_error_format :
    (∀ e : ErrorResponse,
        e.errorMessage =
          "Error " ++ toString e.status ++ " " ++ e.title ++ " (" ++ e.detail ++ ")") ∧
      checkResponse
          ⟨404, "\x7b\"type\":\"t\",\"title\":\"Not Found\",\"status\":404,\"detail\":\"x\"\x7d"⟩ =
        some ⟨"t", "Not Found", 404, "x"⟩ ∧
      ErrorResponse.errorMessage ⟨"t", "Not Found", 404, "x"⟩ = "Error 404 Not Found (x)" :=
  ⟨fun _ => rfl, rfl, rfl⟩

/-- Claim C6: a body on which JSON encoding fails makes `do` return the
serialization error at once, with no request handed to the transport. -/
theorem c6_do_serialization_aborts (c : Client) (method path msg : String) :
    doDispatch c method path (some (GoBody.unencodable msg)) =
      (Except.error (DoError.serialization msg), []) :=
  rfl

/-- Claim C7: for the credential `abc123-us11`, construction succeeds,
the base URL host is `us11.api.mailchimp.com` and the full base URL is
`https://us11.api.mailchimp.com/3.0`. -/
theorem c7_newClient_region :
    (newClient "abc123-us11" none).toOption.map (fun c => (getBaseURL c).host) =
        some "us11.api.mailchimp.com" ∧
      (newClient "abc123-us11" none).toOption.map (fun c => urlString (getBaseURL c)) =
        some "https://us11.api.mailchimp.com/3.0" :=
  ⟨rfl, rfl⟩

/-- Claim C8: `checkResponse` is a function of the status code and the
body bytes alone — two responses agreeing on both yield equal results,
with no state carried across calls. -/
theorem c8_checkResponse_deterministic (r1 r2 : HttpResponse)
    (hs : r1.statusCode = r2.statusCode) (hb : r1.body = r2.body) :
    checkResponse r1 = checkResponse r2 := by
  cases r1
  cases r2
  cases hs
  cases hb
  rfl

/-- Claim C8, witness on two identical responses. -/
theorem c8_witness : checkResponse ⟨500, "x"⟩ = checkResponse ⟨500, "x"⟩ :=
  c8_checkResponse_deterministic ⟨500, "x"⟩ ⟨500, "x"⟩ rfl rfl

/-- Claim C9: after `SetBaseURL u`, `GetBaseURL` returns `u`, and the
credential-derived state (`apiKey` and the parsed region token `dc`)
is untouched. -/
theorem c9_setBaseURL_frame (c : Client) (u : URL) :
    getBaseURL (setBaseURL c u) = u ∧
      (setBaseURL c u).apiKey = c.apiKey ∧ (setBaseURL c u).dc = c.dc :=
  ⟨rfl, rfl, rfl⟩

/-- Claim C10: for non-2xx responses the envelope depends on the body
alone — the HTTP status code is never copied into it — so a 500 with an
empty body yields the all-zero envelope, which stringifies as
`Error 0  ()`. -/
theorem c10_envelope_from_body_only (s1 s2 : Int) (b : String)
    (h1 : ¬(200 ≤ s1 ∧ s1 ≤ 299)) (h2 : ¬(200 ≤ s2 ∧ s2 ≤ 299)) :
    checkResponse ⟨s1, b⟩ = checkResponse ⟨s2, b⟩ ∧
      checkResponse ⟨500, ""⟩ = some ⟨"", "", 0, ""⟩ ∧
      ErrorResponse.errorMessage ⟨"", "", 0, ""⟩ = "Error 0  ()" := by
  have e1 : checkResponse ⟨s1, b⟩ = some (unmarshalErrorResponse b ⟨"", "", 0, ""⟩) := by
    unfold checkResponse
    exact if_neg h1
  have e2 : checkResponse ⟨s2, b⟩ = some (unmarshalErrorResponse b ⟨"", "", 0, ""⟩) := by
    unfold checkResponse
    exact if_neg h2
  exact ⟨by rw [e1, e2], rfl, rfl⟩

/-- Claim C10, witness at statuses 500 and 404 with an empty body. -/
theorem c10_witness :
    checkResponse ⟨500, ""⟩ = checkResponse ⟨404, ""⟩ ∧
      checkResponse ⟨500, ""⟩ = some ⟨"", "", 0, ""⟩ ∧
      ErrorResponse.errorMessage ⟨"", "", 0, ""⟩ = "Error 0  ()" :=
  c10_envelope_from_body_only 500 404 "" (by decide) (by decide)

